import Mathlib

/-!
Shallow embedding of `.github/scripts/check_adaptive_alloc.py` (the adaptive
vs fixed paging allocation-delta gate) and proofs of its specification claims.

Modelling conventions:
* Python floats are modelled as rationals (`ℚ`); the special values produced by
  the script itself (`float("inf")` for a zero baseline, the `float("nan")`
  fallback in the per-operation division) are modelled explicitly by dedicated
  constructors (`PDelta.inf`, `PVal.nan`).  Binary rounding of IEEE arithmetic
  is not modelled.
* A JSON report that deserializes into the shapes the script actually probes
  (`Benchmarks` list of objects with optional string labels and an optional
  statistics object with optional numeric fields) is a `Report`.  Any file
  content that raises inside `load_allocations` — a JSON decode failure, or a
  structural type error such as `"Benchmarks": null` or a non-object entry —
  is `Candidate.malformed`: evaluating it signals an exception, modelled as
  `Except.error ()`.  The script contains no exception handler, so the error
  propagates out of `main` (CPython then exits with status 1).
* Filesystem discovery (`rglob` over the artifacts root) is modelled by the
  environment carrying the list of matched files together with their
  modification times; environment variables are carried as their parsed
  numeric values.
-/

namespace AdaptiveAlloc

/-- A per-operation allocation value as the Python script manipulates it:
either an ordinary number or the `float("nan")` produced by the (dead)
zero-divisor fallback in `load_allocations`. -/
inductive PVal where
  | q (x : ℚ)
  | nan
deriving DecidableEq

/-- The value of `delta_pct` in `main`: a finite number, `float("inf")`
(zero baseline), or `nan` (propagated from a `nan` measurement). -/
inductive PDelta where
  | fin (x : ℚ)
  | inf
  | nan
deriving DecidableEq

/-- The `status` string computed in `main`. -/
inductive Status where
  | PASS
  | FAIL
deriving DecidableEq

/-- Which branch of the `if "fixed" in method / elif "adaptive" in method`
classification an entry falls into. -/
inductive Cat where
  | fixed
  | adaptive
deriving DecidableEq

/-- The `Statistics` object of one benchmark entry: the three numeric fields
the script probes, each possibly absent. -/
structure Stats where
  AllocatedBytes : Option ℚ
  Operations : Option ℚ
  AllocatedB : Option ℚ
deriving DecidableEq

/-- One element of the `Benchmarks` array. -/
structure Bench where
  Method : Option String
  DisplayInfo : Option String
  Statistics : Option Stats
deriving DecidableEq

/-- A deserialized report.  `Benchmarks := none` models an absent key (the
script then iterates over `[]`). -/
structure Report where
  Benchmarks : Option (List Bench)
deriving DecidableEq

/-- The content of one candidate report file, as seen by `load_allocations`:
either content that raises (JSON decode failure or structural type error), or
a well-typed deserialized report. -/
inductive Candidate where
  | malformed
  | parsed (data : Report)
deriving DecidableEq

/-- A discovered report file: its path (used only for rendering), its
modification time (used only for ordering) and its content. -/
structure ReportFile where
  path : String
  mtime : ℚ
  content : Candidate
deriving DecidableEq

/-- The run environment of `main`: whether the artifacts root exists, the
files matched by the filename glob (in discovery order), and the parsed
values of the two environment-variable overrides (absent means default). -/
structure Env where
  rootExists : Bool
  reports : List ReportFile
  threshOverride : Option ℚ
  minBytesOverride : Option ℚ

/-- The figures `main` computes for one selected measurement pair. -/
structure Verdict where
  fixed_alloc : PVal
  adaptive_alloc : PVal
  delta_pct : PDelta
  thresh : ℚ
  min_bytes : ℚ
  under_min : Bool
  status : Status
deriving DecidableEq

/-- How a (normally terminating) run of `main` ends. -/
inductive MainResult where
  | skipNoRoot
  | skipNoReports
  | skipNoMetrics
  | completed (v : Verdict) (selected : ReportFile)
deriving DecidableEq

/-- ASCII lowercasing of one character, the effect of Python `str.lower()`
on the ASCII labels at hand. -/
def lowerChar (c : Char) : Char :=
  if 65 ≤ c.toNat ∧ c.toNat ≤ 90 then Char.ofNat (c.toNat + 32) else c

/-- `startsWithChars needle hay`: `needle` is an initial segment of `hay`. -/
def startsWithChars : List Char → List Char → Bool
  | [], _ => true
  | _ :: _, [] => false
  | c :: cs, d :: ds => c == d && startsWithChars cs ds

/-- `containsChars needle hay`: Python `needle in hay` on strings. -/
def containsChars (needle : List Char) : List Char → Bool
  | [] => startsWithChars needle []
  | c :: t => startsWithChars needle (c :: t) || containsChars needle t

/-- Python `x or y` on an optional string (`None` and `""` are falsy). -/
def pyOrStr : Option String → Option String → Option String
  | some s, y => if s = "" then y else some s
  | none, y => y

/-- `b.get("Method") or b.get("DisplayInfo") or ""` from `load_allocations`. -/
def rawLabel (b : Bench) : String :=
  (pyOrStr (pyOrStr b.Method b.DisplayInfo) (some "")).getD ""

/-- The lowercased `method` string of `load_allocations`, as characters. -/
def methodOf (b : Bench) : List Char :=
  (rawLabel b).data.map lowerChar

def fixedNeedle : List Char := "fixed".data

def adaptiveNeedle : List Char := "adaptive".data

/-- Python `x or d` on an optional number (`None` and `0` are falsy):
used for `operations = stats.get("Operations") or 1`. -/
def pyOrQ (x : Option ℚ) (d : ℚ) : ℚ :=
  match x with
  | some v => if v = 0 then d else v
  | none => d

/-- `b.get("Statistics") or {}` (an absent or empty object probes as all
fields absent). -/
def statsOf (b : Bench) : Stats :=
  b.Statistics.getD ⟨none, none, none⟩

/-- The per-operation value of one statistics block, following the source:
prefer `AllocatedBytes / (Operations or 1)` (with the `float("nan")` fallback
for a falsy divisor), else fall back to `AllocatedB`; `none` is Python `None`
and makes the entry be skipped. -/
def perOpStats (stats : Stats) : Option PVal :=
  match stats.AllocatedBytes with
  | some ab =>
      some (if pyOrQ stats.Operations 1 = 0 then PVal.nan
            else PVal.q (ab / pyOrQ stats.Operations 1))
  | none => Option.map PVal.q stats.AllocatedB

/-- The per-operation value of one benchmark entry. -/
def perOpOf (b : Bench) : Option PVal :=
  perOpStats (statsOf b)

/-- Which accumulator slot an entry writes to (derived view of the
`if "fixed" in method / elif "adaptive" in method / else` chain). -/
def classifyOf (b : Bench) : Option Cat :=
  if containsChars fixedNeedle (methodOf b) then some Cat.fixed
  else if containsChars adaptiveNeedle (methodOf b) then some Cat.adaptive
  else none

/-- Whether an entry would overwrite the slot for category `c`: it has a
per-operation value and classifies as `c`. -/
def hitsCat (c : Cat) (b : Bench) : Bool :=
  (perOpOf b).isSome && decide (classifyOf b = some c)

/-- The body of the `for b in benches` loop of `load_allocations`, acting on
the `(fixed_alloc, adaptive_alloc)` accumulator. -/
def step (acc : Option PVal × Option PVal) (b : Bench) : Option PVal × Option PVal :=
  match perOpOf b with
  | none => acc
  | some v =>
      if containsChars fixedNeedle (methodOf b) then (some v, acc.2)
      else if containsChars adaptiveNeedle (methodOf b) then (acc.1, some v)
      else acc

/-- `load_allocations`: raises (`Except.error`) on malformed content,
otherwise folds the loop body over the `Benchmarks` list and returns the
`(fixed_alloc, adaptive_alloc)` pair. -/
def load_allocations : Candidate → Except Unit (Option PVal × Option PVal)
  | Candidate.malformed => Except.error ()
  | Candidate.parsed data =>
      Except.ok (List.foldl step (none, none) (data.Benchmarks.getD []))

/-- The ordering key of `reports.sort(key=lambda p: p.stat().st_mtime,
reverse=True)`: `a` comes no later than `b` when its mtime is no smaller. -/
def mtimeGe (a b : ReportFile) : Prop :=
  b.mtime ≤ a.mtime

instance : DecidableRel mtimeGe :=
  fun a b => inferInstanceAs (Decidable (b.mtime ≤ a.mtime))

instance : IsTotal ReportFile mtimeGe :=
  ⟨fun a b => le_total b.mtime a.mtime⟩

instance : IsTrans ReportFile mtimeGe :=
  ⟨fun _ _ _ h1 h2 => le_trans h2 h1⟩

/-- Sorting the candidate list by modification time, most recent first
(a stable sort, like Python's). -/
def sortDesc (l : List ReportFile) : List ReportFile :=
  l.insertionSort mtimeGe

/-- The `for rpt in reports` selection loop of `main`: try each candidate in
order, commit to the first one whose extraction yields both values; an
exception from `load_allocations` propagates (there is no handler). -/
def selectPair : List ReportFile → Except Unit (Option (ReportFile × PVal × PVal))
  | [] => Except.ok none
  | r :: rest =>
      match load_allocations r.content with
      | Except.error e => Except.error e
      | Except.ok (f, a) =>
          match f, a with
          | some fv, some av => Except.ok (some (r, fv, av))
          | _, _ => selectPair rest

/-- Python `v < c` where `v` may be `nan` (every comparison with `nan` is
false). -/
def pvLtQ (v : PVal) (c : ℚ) : Bool :=
  match v with
  | PVal.q x => decide (x < c)
  | PVal.nan => false

/-- `delta_pct = (adaptive - fixed) / fixed * 100 if fixed_alloc else
float("inf")`. A `nan` operand is truthy in Python and contaminates the
arithmetic to `nan`. -/
def deltaPctPV (f a : PVal) : PDelta :=
  match f with
  | PVal.q fv =>
      if fv = 0 then PDelta.inf
      else
        match a with
        | PVal.q av => PDelta.fin ((av - fv) / fv * 100)
        | PVal.nan => PDelta.nan
  | PVal.nan => PDelta.nan

/-- Python `delta_pct <= thresh` (false for `inf` and `nan` against a finite
threshold). -/
def deltaLe (d : PDelta) (t : ℚ) : Bool :=
  match d with
  | PDelta.fin x => decide (x ≤ t)
  | PDelta.inf => false
  | PDelta.nan => false

/-- The comparator of `main`: `delta_pct`, `under_min` and `status` computed
from the selected pair and the two configuration knobs. -/
def computeVerdict (f a : PVal) (thresh mb : ℚ) : Verdict :=
  let d := deltaPctPV f a
  let um := pvLtQ a mb && pvLtQ f mb
  ⟨f, a, d, thresh, mb, um,
    if um || deltaLe d thresh then Status.PASS else Status.FAIL⟩

/-- Round half to even of the fraction `n / d` (for `d > 0`), computed on
integers: `f` is the floor, `r2` twice the remainder. -/
def roundHalfEvenNum (n : ℤ) (d : ℤ) : ℤ :=
  let f := Int.fdiv n d
  let r2 := 2 * (n - f * d)
  if r2 < d then f
  else if d < r2 then f + 1
  else if f % 2 = 0 then f else f + 1

/-- Round half to even on a rational, the rounding used by Python `format`
of a decimal-exact value. -/
def roundHalfEven (x : ℚ) : ℤ :=
  roundHalfEvenNum x.num x.den

/-- Insert `,` after every third character of a reversed digit list. -/
def commaRev : List Char → List Char
  | a :: b :: c :: d :: tl => a :: b :: c :: ',' :: commaRev (d :: tl)
  | l => l

/-- Thousands-grouping of a most-significant-first digit list. -/
def insertCommas (ds : List Char) : List Char :=
  (commaRev ds.reverse).reverse

/-- Python `f"{x:,.0f}"` on a finite value: round half to even to an
integer and group digits in threes.  (The `-0` display of a negative value
rounding to zero is not modelled.) -/
def fmtThousands (x : ℚ) : String :=
  let n := roundHalfEven x
  (if n < 0 then "-" else "") ++ String.mk (insertCommas (Nat.repr n.natAbs).data)

/-- Python `f"{x:.2f}"` on a finite value: round `100 * x` half to even and
print with two decimal places (the scaling happens on the numerator so the
whole computation stays on integers). -/
def fmtTwoDec (x : ℚ) : String :=
  let n := roundHalfEvenNum (x.num * 100) x.den
  let mag := n.natAbs
  (if n < 0 then "-" else "") ++ Nat.repr (mag / 100) ++ "." ++
    (if mag % 100 < 10 then "0" else "") ++ Nat.repr (mag % 100)

/-- Rendering of a measurement in the report (`nan` prints as `nan`). -/
def fmtPVal (v : PVal) : String :=
  match v with
  | PVal.q x => fmtThousands x
  | PVal.nan => "nan"

/-- Rendering of `delta_pct` (`inf` and `nan` print as Python prints them). -/
def fmtDelta (d : PDelta) : String :=
  match d with
  | PDelta.fin x => fmtTwoDec x
  | PDelta.inf => "inf"
  | PDelta.nan => "nan"

def statusStr : Status → String
  | Status.PASS => "PASS"
  | Status.FAIL => "FAIL"

/-- The markdown document built in `main` (`"\n".join(md) + "\n"`), written
to `ADAPTIVE-ALLOC-DELTA.md` and printed to stdout. -/
def renderMd (v : Verdict) (reportPath : String) : String :=
  "# Adaptive Paging Allocation Delta\n" ++
  "\n" ++
  "Report: `" ++ reportPath ++ "`\n" ++
  "Fixed Alloc (B/op): " ++ fmtPVal v.fixed_alloc ++ "\n" ++
  "Adaptive Alloc (B/op): " ++ fmtPVal v.adaptive_alloc ++ "\n" ++
  "Delta: " ++ fmtDelta v.delta_pct ++ "% (threshold " ++ fmtTwoDec v.thresh ++ "%)\n" ++
  "Min Bytes Threshold: " ++ fmtThousands v.min_bytes ++ " B/op (check " ++
    (if v.under_min then "skipped" else "applied") ++ ")\n" ++
  "Result: **" ++ statusStr v.status ++ "**\n"

/-- The whole of `main` up to its return value, for a run that terminates
normally; `Except.error` models an uncaught exception escaping `main`. -/
def mainRun (env : Env) : Except Unit MainResult :=
  if env.rootExists = false then Except.ok MainResult.skipNoRoot
  else if env.reports.isEmpty then Except.ok MainResult.skipNoReports
  else
    match selectPair (sortDesc env.reports) with
    | Except.error e => Except.error e
    | Except.ok none => Except.ok MainResult.skipNoMetrics
    | Except.ok (some (rpt, f, a)) =>
        Except.ok (MainResult.completed
          (computeVerdict f a (env.threshOverride.getD 20) (env.minBytesOverride.getD 4096))
          rpt)

/-- The value `main` returns on a normal run, i.e. the process exit status
via `sys.exit(main())`. -/
def exitCode : MainResult → Nat
  | MainResult.completed v _ => if v.status = Status.FAIL then 1 else 0
  | _ => 0

/-- The process exit status of one invocation: `main`'s return value on a
normal run; CPython exits with status 1 when an exception escapes `main`. -/
def processExit (env : Env) : Nat :=
  match mainRun env with
  | Except.ok r => exitCode r
  | Except.error _ => 1

/-- The `::warning::` line printed on each early-exit skip path of `main`
(none is printed when a verdict is produced). -/
def skipMessage : MainResult → Option String
  | MainResult.skipNoRoot => some "::warning::Artifacts root not found; skipping allocation check"
  | MainResult.skipNoReports => some "::warning::No allocation benchmark JSON reports found; skipping"
  | MainResult.skipNoMetrics => some "::warning::Could not extract allocation metrics; skipping"
  | MainResult.completed _ _ => none

/-- A line using the CI warning convention. -/
def isWarnLine (s : String) : Bool :=
  startsWithChars "::warning::".data s.data

/-- A benchmark entry: method label `Fixed`, per-operation field `v`. -/
def benchFixedB (v : ℚ) : Bench :=
  ⟨some "Fixed", none, some ⟨none, none, some v⟩⟩

/-- A benchmark entry: method label `Adaptive`, per-operation field `v`. -/
def benchAdaptiveB (v : ℚ) : Bench :=
  ⟨some "Adaptive", none, some ⟨none, none, some v⟩⟩

/-- A well-formed report yielding the complete pair (1000, 1100). -/
def goodReport : Report :=
  ⟨some [benchFixedB 1000, benchAdaptiveB 1100]⟩

/-- A report with only a fixed entry: a partial extraction. -/
def partialReport : Report :=
  ⟨some [benchFixedB 1000]⟩

/-- A report with two entries matching `adaptive` (500 then 700). -/
def dupReport : Report :=
  ⟨some [benchFixedB 1000, benchAdaptiveB 500, benchAdaptiveB 700]⟩

/-- A well-formed report with a zero fixed baseline and an adaptive value
above the default byte floor: its delta is infinite and its verdict FAIL. -/
def failReport : Report :=
  ⟨some [benchFixedB 0, benchAdaptiveB 5000]⟩

/-- A candidate file that raises inside `load_allocations`. -/
def malformedFile : ReportFile :=
  ⟨"benchmarks/BenchmarkDotNet.Artifacts/bad/AdaptivePagingAllocationsBenchmarks-report.json",
   2, Candidate.malformed⟩

/-- An older well-formed candidate yielding a complete pair. -/
def goodOldFile : ReportFile :=
  ⟨"benchmarks/BenchmarkDotNet.Artifacts/old/AdaptivePagingAllocationsBenchmarks-report.json",
   1, Candidate.parsed goodReport⟩

/-- A more recent candidate yielding only a partial pair. -/
def partialNewFile : ReportFile :=
  ⟨"benchmarks/BenchmarkDotNet.Artifacts/new/AdaptivePagingAllocationsBenchmarks-report.json",
   3, Candidate.parsed partialReport⟩

/-- A candidate whose complete pair fails the default threshold. -/
def failFile : ReportFile :=
  ⟨"benchmarks/BenchmarkDotNet.Artifacts/f/AdaptivePagingAllocationsBenchmarks-report.json",
   1, Candidate.parsed failReport⟩

/-- Run environment: a malformed candidate (mtime 2) followed, in
most-recent-first order, by a well-formed one (mtime 1); default knobs. -/
def envMalformedThenGood : Env :=
  ⟨true, [malformedFile, goodOldFile], none, none⟩

/-- Run environment: a single malformed candidate; default knobs. -/
def envMalformedOnly : Env :=
  ⟨true, [malformedFile], none, none⟩

/-- Run environment: the artifacts root does not exist. -/
def envNoRoot : Env :=
  ⟨false, [], none, none⟩

/-- Run environment: one candidate whose pair fails the default threshold. -/
def envFail : Env :=
  ⟨true, [failFile], none, none⟩

end AdaptiveAlloc

namespace AdaptiveAlloc

/-- On numeric (non-`nan`) inputs the comparator passes exactly when the
minimum-bytes override applies or the relative delta is within threshold. -/
lemma status_pass_iff (fixed adaptive t mb : ℚ) :
    (computeVerdict (PVal.q fixed) (PVal.q adaptive) t mb).status = Status.PASS ↔
      ((adaptive < mb ∧ fixed < mb) ∨ (fixed ≠ 0 ∧ (adaptive - fixed) / fixed * 100 ≤ t)) := by
  by_cases hf : fixed = 0 <;> by_cases ha : adaptive < mb <;> by_cases hb : fixed < mb <;>
    by_cases hd : (adaptive - fixed) / fixed * 100 ≤ t <;>
      simp [computeVerdict, deltaPctPV, deltaLe, pvLtQ, hf, ha, hb, hd]

/-- `FAIL` is exactly "not `PASS`". -/
lemma status_fail_iff_not_pass (s : Status) : s = Status.FAIL ↔ ¬ s = Status.PASS := by
  cases s <;> simp

/-- C2: for every measurement pair (fixed, adaptive) and configuration
(threshold, min_bytes), the comparator computes
`delta_pct = (adaptive - fixed) / fixed * 100` when fixed is non-zero and
positive infinity when fixed is zero; `under_min` holds iff both values are
below `min_bytes`; and the status is PASS iff `under_min` holds or
`delta_pct ≤ threshold`, otherwise FAIL. -/
theorem comparator_contract (fixed adaptive thresh mb : ℚ) :
    ((computeVerdict (PVal.q fixed) (PVal.q adaptive) thresh mb).delta_pct =
      if fixed = 0 then PDelta.inf else PDelta.fin ((adaptive - fixed) / fixed * 100)) ∧
    ((computeVerdict (PVal.q fixed) (PVal.q adaptive) thresh mb).under_min = true ↔
      (adaptive < mb ∧ fixed < mb)) ∧
    ((computeVerdict (PVal.q fixed) (PVal.q adaptive) thresh mb).status = Status.PASS ↔
      ((adaptive < mb ∧ fixed < mb) ∨ (fixed ≠ 0 ∧ (adaptive - fixed) / fixed * 100 ≤ thresh))) ∧
    ((computeVerdict (PVal.q fixed) (PVal.q adaptive) thresh mb).status = Status.FAIL ↔
      ¬((adaptive < mb ∧ fixed < mb) ∨ (fixed ≠ 0 ∧ (adaptive - fixed) / fixed * 100 ≤ thresh))) := by
  refine ⟨?_, ?_, status_pass_iff fixed adaptive thresh mb, ?_⟩
  · by_cases hf : fixed = 0 <;> simp [computeVerdict, deltaPctPV, hf]
  · simp [computeVerdict, pvLtQ, and_comm]
  · rw [status_fail_iff_not_pass, status_pass_iff]

/-- Witness for C2 at fixed=1000, adaptive=1100, threshold=20,
min_bytes=4096: the verdict is PASS. -/
theorem comparator_contract_witness :
    (computeVerdict (PVal.q 1000) (PVal.q 1100) 20 4096).status = Status.PASS :=
  ((comparator_contract 1000 1100 20 4096).2.2.1).mpr (Or.inl (by constructor <;> decide))

/-- C7 counterexample: the monotonicity claim quantified over every fixed
value fails at fixed = -100, threshold = 20, min_bytes = -1000: adaptive
-100 yields PASS but the smaller adaptive -200 yields FAIL. -/
theorem comparator_monotone_counterexample :
    ((-200 : ℚ) ≤ -100) ∧
    (computeVerdict (PVal.q (-100)) (PVal.q (-100)) 20 (-1000)).status = Status.PASS ∧
    (computeVerdict (PVal.q (-100)) (PVal.q (-200)) 20 (-1000)).status = Status.FAIL := by
  refine ⟨by decide, ?_, ?_⟩
  · simp [computeVerdict, deltaPctPV, deltaLe, pvLtQ]
  · simp [computeVerdict, deltaPctPV, deltaLe, pvLtQ]
    norm_num

/-- C7 (amended): for every nonnegative fixed value, holding fixed,
threshold and min_bytes constant, if the verdict is PASS at an adaptive
value then it is also PASS at every smaller adaptive value. -/
theorem comparator_monotone_nonneg (fixed thresh mb a1 a2 : ℚ)
    (hfix : 0 ≤ fixed) (h12 : a1 ≤ a2)
    (hpass : (computeVerdict (PVal.q fixed) (PVal.q a2) thresh mb).status = Status.PASS) :
    (computeVerdict (PVal.q fixed) (PVal.q a1) thresh mb).status = Status.PASS := by
  rw [status_pass_iff] at hpass ⊢
  rcases hpass with ⟨h2, hf⟩ | ⟨hne, hle⟩
  · exact Or.inl ⟨lt_of_le_of_lt h12 h2, hf⟩
  · refine Or.inr ⟨hne, le_trans ?_ hle⟩
    have hdiv : (a1 - fixed) / fixed ≤ (a2 - fixed) / fixed :=
      div_le_div_of_nonneg_right (by linarith) hfix
    exact mul_le_mul_of_nonneg_right hdiv (by norm_num)

/-- Witness for C7 (amended) at fixed=1000, threshold=20, min_bytes=4096,
a1=900 ≤ a2=1100: PASS at 1100 gives PASS at 900. -/
theorem comparator_monotone_nonneg_witness :
    (computeVerdict (PVal.q 1000) (PVal.q 900) 20 4096).status = Status.PASS :=
  comparator_monotone_nonneg 1000 20 4096 900 1100 (by decide) (by decide) (by decide)

/-- The defaulted operation count is never zero. -/
lemma pyOrQ_one_ne_zero (x : Option ℚ) : pyOrQ x 1 ≠ 0 := by
  cases x with
  | none => simp [pyOrQ]
  | some v => by_cases hv : v = 0 <;> simp [pyOrQ, hv]

/-- The per-operation computation never produces the `nan` fallback. -/
lemma perOpStats_ne_nan (s : Stats) : perOpStats s ≠ some PVal.nan := by
  obtain ⟨ab, ops, pb⟩ := s
  cases ab with
  | some v => simp [perOpStats, pyOrQ_one_ne_zero]
  | none => cases pb <;> simp [perOpStats]

/-- C9: in the parser's per-operation computation the divisor is coerced to
1 before the division, so it is never zero or falsy, the division cannot
divide by zero, and the `float("nan")` fallback branch is unreachable for
every entry. -/
theorem divisor_never_falsy (stats : Stats) (b : Bench) :
    pyOrQ stats.Operations 1 ≠ 0 ∧
    perOpStats stats ≠ some PVal.nan ∧
    perOpOf b ≠ some PVal.nan :=
  ⟨pyOrQ_one_ne_zero stats.Operations, perOpStats_ne_nan stats, perOpStats_ne_nan (statsOf b)⟩

/-- Witness for C9 at a statistics block with a reported operation count of
0 (falsy) and at a concrete entry. -/
theorem divisor_never_falsy_witness :
    pyOrQ (some 0) 1 ≠ 0 ∧
    perOpStats ⟨some 1000, some 0, none⟩ ≠ some PVal.nan ∧
    perOpOf (benchFixedB 5) ≠ some PVal.nan :=
  divisor_never_falsy ⟨some 1000, some 0, none⟩ (benchFixedB 5)

/-- C6: per-operation bytes come from `AllocatedBytes` divided by the
operation count when the raw total is present (the count defaulting to 1
when absent or falsy), else from the precomputed `AllocatedB` field; an
entry with neither source is skipped and contributes nothing. -/
theorem perop_source_resolution (stats : Stats) (b : Bench) (ab q : ℚ)
    (acc : Option PVal × Option PVal) :
    (stats.AllocatedBytes = some ab →
        perOpStats stats = some (PVal.q (ab / pyOrQ stats.Operations 1))) ∧
    ((stats.Operations = none ∨ stats.Operations = some 0) → pyOrQ stats.Operations 1 = 1) ∧
    (stats.AllocatedBytes = none → stats.AllocatedB = some q →
        perOpStats stats = some (PVal.q q)) ∧
    (stats.AllocatedBytes = none → stats.AllocatedB = none → perOpStats stats = none) ∧
    (perOpOf b = none → step acc b = acc) := by
  refine ⟨?_, ?_, ?_, ?_, ?_⟩
  · intro h
    simp [perOpStats, h, pyOrQ_one_ne_zero]
  · rintro (h | h) <;> simp [pyOrQ, h]
  · intro h1 h2
    simp [perOpStats, h1, h2]
  · intro h1 h2
    simp [perOpStats, h1, h2]
  · intro h
    simp [step, h]

/-- Witness for C6: the three source resolutions and the skip case at
concrete statistics blocks. -/
theorem perop_source_resolution_witness :
    perOpStats ⟨some 1000, some 4, none⟩ = some (PVal.q (1000 / pyOrQ (some 4) 1)) ∧
    perOpStats ⟨none, none, some 777⟩ = some (PVal.q 777) ∧
    perOpStats ⟨none, none, none⟩ = none ∧
    step (none, none) ⟨some "Other", none, none⟩ = (none, none) := by
  have h1 := perop_source_resolution ⟨some 1000, some 4, none⟩ ⟨some "Other", none, none⟩
      1000 777 (none, none)
  have h2 := perop_source_resolution ⟨none, none, some 777⟩ ⟨some "Other", none, none⟩
      1000 777 (none, none)
  have h3 := perop_source_resolution ⟨none, none, none⟩ ⟨some "Other", none, none⟩
      1000 777 (none, none)
  exact ⟨h1.1 rfl, h2.2.2.1 rfl rfl, h3.2.2.2.1 rfl rfl, h1.2.2.2.2 rfl⟩

/-- C10: an entry whose lowercased label contains both `fixed` and
`adaptive` is deterministically classified as fixed — the fixed test is
checked first and the adaptive branch is never taken. -/
theorem both_labels_classified_fixed (b : Bench) (v : PVal)
    (acc : Option PVal × Option PVal)
    (hfix : containsChars fixedNeedle (methodOf b) = true)
    (_hadapt : containsChars adaptiveNeedle (methodOf b) = true)
    (hper : perOpOf b = some v) :
    classifyOf b = some Cat.fixed ∧ step acc b = (some v, acc.2) := by
  constructor
  · simp [classifyOf, hfix]
  · simp [step, hper, hfix]

/-- Witness for C10 at a label containing both substrings. -/
theorem both_labels_classified_fixed_witness :
    classifyOf ⟨some "AdaptiveVsFixed", none, some ⟨none, none, some 123⟩⟩ = some Cat.fixed ∧
    step (none, none) ⟨some "AdaptiveVsFixed", none, some ⟨none, none, some 123⟩⟩ =
      (some (PVal.q 123), none) :=
  both_labels_classified_fixed ⟨some "AdaptiveVsFixed", none, some ⟨none, none, some 123⟩⟩
    (PVal.q 123) (none, none) (by rfl) (by rfl) (by rfl)

/-- An entry that does not hit the adaptive slot leaves it unchanged. -/
lemma step_snd_of_no_adaptive_hit (acc : Option PVal × Option PVal) (b : Bench)
    (h : hitsCat Cat.adaptive b = false) : (step acc b).2 = acc.2 := by
  unfold step
  cases hper : perOpOf b with
  | none => rfl
  | some v =>
    by_cases hf : containsChars fixedNeedle (methodOf b) = true
    · simp [hf]
    · by_cases ha : containsChars adaptiveNeedle (methodOf b) = true
      · have : hitsCat Cat.adaptive b = true := by
          simp [hitsCat, hper, classifyOf, hf, ha]
        simp [this] at h
      · simp [hf, ha]

/-- An entry that does not hit the fixed slot leaves it unchanged. -/
lemma step_fst_of_no_fixed_hit (acc : Option PVal × Option PVal) (b : Bench)
    (h : hitsCat Cat.fixed b = false) : (step acc b).1 = acc.1 := by
  unfold step
  cases hper : perOpOf b with
  | none => rfl
  | some v =>
    by_cases hf : containsChars fixedNeedle (methodOf b) = true
    · have : hitsCat Cat.fixed b = true := by
        simp [hitsCat, hper, classifyOf, hf]
      simp [this] at h
    · by_cases ha : containsChars adaptiveNeedle (methodOf b) = true
      · simp [hf, ha]
      · simp [hf, ha]

/-- Folding over entries none of which hit the adaptive slot preserves it. -/
lemma foldl_snd_of_no_adaptive_hit (l : List Bench) (acc : Option PVal × Option PVal)
    (h : ∀ b2 ∈ l, hitsCat Cat.adaptive b2 = false) :
    (List.foldl step acc l).2 = acc.2 := by
  induction l generalizing acc with
  | nil => rfl
  | cons b t ih =>
    rw [List.foldl_cons, ih _ fun b2 hb2 => h b2 (List.mem_cons_of_mem _ hb2),
      step_snd_of_no_adaptive_hit acc b (h b (List.mem_cons_self _ _))]

/-- Folding over entries none of which hit the fixed slot preserves it. -/
lemma foldl_fst_of_no_fixed_hit (l : List Bench) (acc : Option PVal × Option PVal)
    (h : ∀ b2 ∈ l, hitsCat Cat.fixed b2 = false) :
    (List.foldl step acc l).1 = acc.1 := by
  induction l generalizing acc with
  | nil => rfl
  | cons b t ih =>
    rw [List.foldl_cons, ih _ fun b2 hb2 => h b2 (List.mem_cons_of_mem _ hb2),
      step_fst_of_no_fixed_hit acc b (h b (List.mem_cons_self _ _))]

/-- An adaptive-classified entry with a value overwrites the adaptive slot. -/
lemma step_of_adaptive (acc : Option PVal × Option PVal) (b : Bench) (v : PVal)
    (hper : perOpOf b = some v) (hcls : classifyOf b = some Cat.adaptive) :
    step acc b = (acc.1, some v) := by
  unfold classifyOf at hcls
  by_cases hf : containsChars fixedNeedle (methodOf b) = true
  · simp [hf] at hcls
  · by_cases ha : containsChars adaptiveNeedle (methodOf b) = true
    · simp [step, hper, hf, ha]
    · simp [hf, ha] at hcls

/-- A fixed-classified entry with a value overwrites the fixed slot. -/
lemma step_of_fixed (acc : Option PVal × Option PVal) (b : Bench) (v : PVal)
    (hper : perOpOf b = some v) (hcls : classifyOf b = some Cat.fixed) :
    step acc b = (some v, acc.2) := by
  unfold classifyOf at hcls
  by_cases hf : containsChars fixedNeedle (methodOf b) = true
  · simp [step, hper, hf]
  · by_cases ha : containsChars adaptiveNeedle (methodOf b) = true
    · simp [hf, ha] at hcls
    · simp [hf, ha] at hcls

/-- C3: when several entries of one report match the same category, the
value used in the resulting pair is the one of the last matching entry in
iteration order — no aggregation and no first-match-wins guard. -/
theorem duplicate_category_last_wins (data : Report) (l1 l2 : List Bench) (b : Bench)
    (v : PVal) (hben : data.Benchmarks = some (l1 ++ b :: l2))
    (hper : perOpOf b = some v) :
    (classifyOf b = some Cat.adaptive → (∀ b2 ∈ l2, hitsCat Cat.adaptive b2 = false) →
        ∀ pair, load_allocations (Candidate.parsed data) = Except.ok pair →
          pair.2 = some v) ∧
    (classifyOf b = some Cat.fixed → (∀ b2 ∈ l2, hitsCat Cat.fixed b2 = false) →
        ∀ pair, load_allocations (Candidate.parsed data) = Except.ok pair →
          pair.1 = some v) := by
  have hload : load_allocations (Candidate.parsed data) =
      Except.ok (List.foldl step (none, none) (l1 ++ b :: l2)) := by
    simp [load_allocations, hben]
  constructor
  · intro hcls hl2 pair hpair
    rw [hload] at hpair
    injection hpair with hpair
    rw [← hpair, List.foldl_append, List.foldl_cons,
      foldl_snd_of_no_adaptive_hit l2 _ hl2,
      step_of_adaptive _ b v hper hcls]
  · intro hcls hl2 pair hpair
    rw [hload] at hpair
    injection hpair with hpair
    rw [← hpair, List.foldl_append, List.foldl_cons,
      foldl_fst_of_no_fixed_hit l2 _ hl2,
      step_of_fixed _ b v hper hcls]

/-- Witness for C3: in a report whose entries match adaptive twice (500
then 700), the extracted adaptive value is 700. -/
theorem duplicate_category_last_wins_witness :
    (some (PVal.q 1000), some (PVal.q 700)).2 = some (PVal.q 700) ∧
    load_allocations (Candidate.parsed dupReport) =
      Except.ok (some (PVal.q 1000), some (PVal.q 700)) := by
  have h := duplicate_category_last_wins dupReport [benchFixedB 1000, benchAdaptiveB 500] []
      (benchAdaptiveB 700) (PVal.q 700) rfl rfl
  exact ⟨h.1 rfl (fun b2 hb2 => absurd hb2 (List.not_mem_nil b2))
      (some (PVal.q 1000), some (PVal.q 700)) rfl, rfl⟩

/-- The selection loop commits to the head candidate when it yields a
complete pair. -/
lemma selectPair_commit (r : ReportFile) (rest : List ReportFile) (fv av : PVal)
    (h : load_allocations r.content = Except.ok (some fv, some av)) :
    selectPair (r :: rest) = Except.ok (some (r, fv, av)) := by
  simp [selectPair, h]

/-- The selection loop passes over a head candidate whose extraction is
incomplete. -/
lemma selectPair_skip (r : ReportFile) (rest : List ReportFile) (f a : Option PVal)
    (h : load_allocations r.content = Except.ok (f, a)) (hna : f = none ∨ a = none) :
    selectPair (r :: rest) = selectPair rest := by
  rcases hna with h1 | h1 <;> subst h1 <;> rw [selectPair, h]
  cases f <;> rfl

/-- An exception from the head candidate's extraction propagates out of the
selection loop. -/
lemma selectPair_error (r : ReportFile) (rest : List ReportFile)
    (h : r.content = Candidate.malformed) :
    selectPair (r :: rest) = Except.error () := by
  rw [selectPair, h]
  rfl

/-- A committed pair comes entirely from the committed candidate's own
extraction. -/
lemma selectPair_sound (l : List ReportFile) : ∀ r fv av,
    selectPair l = Except.ok (some (r, fv, av)) →
    load_allocations r.content = Except.ok (some fv, some av) := by
  induction l with
  | nil =>
    intro r fv av h
    simp [selectPair] at h
  | cons c rest ih =>
    intro r fv av h
    rw [selectPair] at h
    cases hl : load_allocations c.content with
    | error e =>
      rw [hl] at h
      cases h
    | ok pair =>
      obtain ⟨f, a⟩ := pair
      rw [hl] at h
      cases f with
      | none => exact ih r fv av h
      | some fv2 =>
        cases a with
        | none => exact ih r fv av h
        | some av2 =>
          simp only [Except.ok.injEq, Option.some.injEq, Prod.mk.injEq] at h
          obtain ⟨hc, hfv, hav⟩ := h
          subst hc; subst hfv; subst hav
          exact hl

/-- `main` propagates a selection exception when the root exists and
candidates were found. -/
lemma mainRun_error (env : Env) (h1 : env.rootExists = true)
    (h2 : env.reports.isEmpty = false)
    (h3 : selectPair (sortDesc env.reports) = Except.error ()) :
    mainRun env = Except.error () := by
  simp [mainRun, h1, h2, h3]

/-- C1 (amended): a candidate file that deserializes but lacks the required
fields is skipped per-file and the next candidate is tried; but a candidate
whose content fails to deserialize raises an uncaught exception that
terminates the whole run abnormally — the pipeline does not proceed to a
following well-formed candidate. -/
theorem parse_error_aborts_run (r : ReportFile) (rest : List ReportFile)
    (f a : Option PVal) (env : Env) :
    (load_allocations r.content = Except.ok (f, a) → (f = none ∨ a = none) →
        selectPair (r :: rest) = selectPair rest) ∧
    (r.content = Candidate.malformed → selectPair (r :: rest) = Except.error ()) ∧
    (env.rootExists = true → env.reports.isEmpty = false →
        selectPair (sortDesc env.reports) = Except.error () →
        mainRun env = Except.error ()) :=
  ⟨fun h hna => selectPair_skip r rest f a h hna,
   fun h => selectPair_error r rest h,
   fun h1 h2 h3 => mainRun_error env h1 h2 h3⟩

/-- C1 counterexample: a run whose most recent candidate is malformed and is
followed by a well-formed candidate terminates abnormally instead of
producing a verdict from the well-formed file. -/
theorem parse_error_aborts_run_counterexample :
    mainRun envMalformedThenGood = Except.error () ∧
    load_allocations goodOldFile.content =
      Except.ok (some (PVal.q 1000), some (PVal.q 1100)) ∧
    goodOldFile.mtime < malformedFile.mtime :=
  ⟨rfl, rfl, by decide⟩

/-- Witness for C1 (amended): a partial candidate is skipped in favour of
the next one; a malformed candidate aborts selection and the whole run. -/
theorem parse_error_aborts_run_witness :
    selectPair [partialNewFile, goodOldFile] = selectPair [goodOldFile] ∧
    selectPair [malformedFile, goodOldFile] = Except.error () ∧
    mainRun envMalformedOnly = Except.error () := by
  have h1 := parse_error_aborts_run partialNewFile [goodOldFile]
      (some (PVal.q 1000)) none envMalformedOnly
  have h2 := parse_error_aborts_run malformedFile [goodOldFile]
      (some (PVal.q 1000)) none envMalformedOnly
  exact ⟨h1.1 rfl (Or.inr rfl), h2.2.1 rfl, h1.2.2 rfl rfl rfl⟩

/-- C4: candidates are ordered by modification time most recent first; they
are tried in that order; the loop commits to the first candidate yielding a
complete pair and passes over candidates yielding partial pairs; and a
committed pair always comes from a single file, never combining partial
extractions. -/
theorem locator_order_and_commit (l : List ReportFile) (r : ReportFile)
    (rest : List ReportFile) (fv av : PVal) (f a : Option PVal) :
    (List.Sorted mtimeGe (sortDesc l) ∧ List.Perm (sortDesc l) l) ∧
    (load_allocations r.content = Except.ok (some fv, some av) →
        selectPair (r :: rest) = Except.ok (some (r, fv, av))) ∧
    (load_allocations r.content = Except.ok (f, a) → (f = none ∨ a = none) →
        selectPair (r :: rest) = selectPair rest) ∧
    (∀ l2 r2 fv2 av2, selectPair l2 = Except.ok (some (r2, fv2, av2)) →
        load_allocations r2.content = Except.ok (some fv2, some av2)) :=
  ⟨⟨List.sorted_insertionSort mtimeGe l, List.perm_insertionSort mtimeGe l⟩,
   fun h => selectPair_commit r rest fv av h,
   fun h hna => selectPair_skip r rest f a h hna,
   fun l2 r2 fv2 av2 h => selectPair_sound l2 r2 fv2 av2 h⟩

/-- Witness for C4: a more recent partial candidate is passed over in
favour of an older complete one, and the two-element list sorts most recent
first. -/
theorem locator_order_and_commit_witness :
    (List.Sorted mtimeGe (sortDesc [goodOldFile, partialNewFile]) ∧
      List.Perm (sortDesc [goodOldFile, partialNewFile]) [goodOldFile, partialNewFile]) ∧
    selectPair [partialNewFile, goodOldFile] =
      Except.ok (some (goodOldFile, PVal.q 1000, PVal.q 1100)) := by
  have h := locator_order_and_commit [goodOldFile, partialNewFile] goodOldFile []
      (PVal.q 1000) (PVal.q 1100) (some (PVal.q 1000)) none
  have hskip := (locator_order_and_commit [] partialNewFile [goodOldFile]
      (PVal.q 1000) (PVal.q 1100) (some (PVal.q 1000)) none).2.2.1 rfl (Or.inr rfl)
  exact ⟨h.1, hskip.trans (h.2.1 rfl)⟩

/-- C5 (amended): a run whose root is missing, or that finds no candidate
files, or whose candidates all deserialize but none yields a complete pair,
exits 0 after a warning-convention line; among normally terminating runs
the exit status is 1 exactly when a FAIL verdict is produced.  (A run that
raises on a malformed candidate terminates abnormally with exit status 1
and no warning line — see the counterexample.) -/
theorem exit_status_contract (env : Env) (res : MainResult) :
    (env.rootExists = false → mainRun env = Except.ok MainResult.skipNoRoot) ∧
    (env.rootExists = true → env.reports = [] →
        mainRun env = Except.ok MainResult.skipNoReports) ∧
    (mainRun env = Except.ok res →
      ((processExit env = 1 ↔
          ∃ v p, res = MainResult.completed v p ∧ v.status = Status.FAIL) ∧
       ((∀ v p, res ≠ MainResult.completed v p) →
          processExit env = 0 ∧
          ∃ m, skipMessage res = some m ∧ isWarnLine m = true))) := by
  refine ⟨?_, ?_, ?_⟩
  · intro h
    simp [mainRun, h]
  · intro h1 h2
    simp [mainRun, h1, h2]
  · intro h
    have hpe : processExit env = exitCode res := by
      simp [processExit, h]
    constructor
    · rw [hpe]
      cases res with
      | completed v p =>
        cases hs : v.status with
        | PASS => simp [exitCode, hs]
        | FAIL => simp [exitCode, hs]
      | skipNoRoot => simp [exitCode]
      | skipNoReports => simp [exitCode]
      | skipNoMetrics => simp [exitCode]
    · intro hne
      cases res with
      | completed v p => exact absurd rfl (hne v p)
      | skipNoRoot =>
        exact ⟨by simp [hpe, exitCode], _, rfl, rfl⟩
      | skipNoReports =>
        exact ⟨by simp [hpe, exitCode], _, rfl, rfl⟩
      | skipNoMetrics =>
        exact ⟨by simp [hpe, exitCode], _, rfl, rfl⟩

/-- C5 counterexample: a run with a single malformed candidate — so no
candidate yields a complete pair — exits with status 1 (uncaught exception)
and produces no FAIL verdict, contradicting the skip-exits-0 clause. -/
theorem exit_status_contract_counterexample :
    mainRun envMalformedOnly = Except.error () ∧ processExit envMalformedOnly = 1 :=
  ⟨rfl, rfl⟩

/-- Witness for C5 (amended): the missing-root skip exits 0 with a warning
line, and a FAIL verdict exits 1. -/
theorem exit_status_contract_witness :
    mainRun envNoRoot = Except.ok MainResult.skipNoRoot ∧
    processExit envNoRoot = 0 ∧
    processExit envFail = 1 := by
  have h1 := exit_status_contract envNoRoot MainResult.skipNoRoot
  have hroot := h1.1 rfl
  have hz : processExit envNoRoot = 0 :=
    ((h1.2.2 hroot).2 (fun v p hv => MainResult.noConfusion hv)).1
  have h3 := exit_status_contract envFail
      (MainResult.completed (computeVerdict (PVal.q 0) (PVal.q 5000) 20 4096) failFile)
  have hone : processExit envFail = 1 :=
    ((h3.2.2 rfl).1).mpr ⟨computeVerdict (PVal.q 0) (PVal.q 5000) 20 4096, failFile, rfl, by decide⟩
  exact ⟨hroot, hz, hone⟩

/-- C8: the decision and the rendering are pure functions of the
measurement pair, the configuration and the selected report path — two runs
on identical inputs produce an identical verdict and byte-identical
markdown; no timestamp or other run-varying input enters `computeVerdict`
or `renderMd`. -/
theorem verdict_render_deterministic (f1 f2 a1 a2 : PVal) (t1 t2 mb1 mb2 : ℚ)
    (p1 p2 : String) (hf : f1 = f2) (ha : a1 = a2) (ht : t1 = t2)
    (hmb : mb1 = mb2) (hp : p1 = p2) :
    computeVerdict f1 a1 t1 mb1 = computeVerdict f2 a2 t2 mb2 ∧
    renderMd (computeVerdict f1 a1 t1 mb1) p1 =
      renderMd (computeVerdict f2 a2 t2 mb2) p2 := by
  subst hf; subst ha; subst ht; subst hmb; subst hp
  exact ⟨rfl, rfl⟩

/-- Witness for C8 at a concrete pair, configuration and path. -/
theorem verdict_render_deterministic_witness :
    computeVerdict (PVal.q 1000) (PVal.q 1100) 20 4096 =
      computeVerdict (PVal.q 1000) (PVal.q 1100) 20 4096 ∧
    renderMd (computeVerdict (PVal.q 1000) (PVal.q 1100) 20 4096) "report.json" =
      renderMd (computeVerdict (PVal.q 1000) (PVal.q 1100) 20 4096) "report.json" :=
  verdict_render_deterministic (PVal.q 1000) (PVal.q 1000) (PVal.q 1100) (PVal.q 1100)
    20 20 4096 4096 "report.json" "report.json" rfl rfl rfl rfl rfl

end AdaptiveAlloc
